import Mathlib

/-!
Verification development for the node manager of titan-node
(`node/scheduler/node/manager.go`).

The Go code is shallowly embedded as follows.

* Go `float64` values are modelled as exact rationals (`Rat`).  Every
  floating-point literal of the source (`0.7`, `2.5`, `1.8`, `0.01`, ...)
  is exactly representable as a rational, and at every input considered in
  the theorems below the IEEE-754 evaluation of the source agrees with the
  exact rational evaluation.
* Go `time.Time` / `time.Duration` values are modelled as `Int`
  nanosecond counts; `time.Time.After` is the strict order `<`.
* A Go `*Node` pointer that may be `nil` is modelled as `Option NodeData`;
  a `nil`-pointer dereference (a Go runtime panic) is modelled by a `none`
  result of the `...Ptr` wrappers.
* The two `sync.Map` registries are modelled as association lists from
  node id to node state; `LoadOrStore` and `LoadAndDelete` are modelled
  directly.  The Go maps store pointers, so an in-place mutation of a
  node that is stored in a map is visible through the map; the embedding
  makes this explicit by writing the updated node back into the list.
* Side effects that leave the manager (pubsub events, `ClientCloser`
  calls) are recorded in the state so that theorems can speak about them.
* The weight manager (`weightMgr`), the score lookup
  (`getNodeScoreLevel`) and the node's `IsAbnormal` predicate are not
  part of the source file under verification; they are modelled from the
  specification's contract (see the doc comments of the corresponding
  definitions).
-/

namespace Titan

/-- NAT traversal class (`types.NatType`). -/
inductive NatType
  | FullCone
  | Restricted
  | PortRestricted
  | Symmetric
  | Unknown
  deriving DecidableEq, Repr

/-- Node tier (`types.NodeType`).  `Other` stands for any value that is
neither `types.NodeEdge` nor `types.NodeCandidate`. -/
inductive NodeType
  | Edge
  | Candidate
  | Other
  deriving DecidableEq, Repr

/-- The fields of `node.Node` that `manager.go` reads or writes.
`abnormal` models the externally defined `IsAbnormal` predicate, which the
spec describes as a derived predicate of the node's state; it is carried
here as a field so that it is a pure function of the node value. -/
structure NodeData where
  NodeID : String
  type : NodeType
  selectWeights : List Nat
  OnlineDuration : Int
  BandwidthUp : Int
  NATType : NatType
  CPUCores : Int
  Memory : Rat
  DiskSpace : Rat
  lastRequestTime : Int
  abnormal : Bool
  deriving Repr

/-- Pubsub events published by the manager (`types.EventNodeOnline`,
`types.EventNodeOffline`), carrying the node id. -/
inductive Event
  | online (id : String)
  | offline (id : String)
  deriving DecidableEq, Repr

/-- The manager's state: the two registries, the live counts, and the
observable state of its collaborators (the weight pools of the weight
manager, the published events, the closed client transports).
`nextHandle` is the weight manager's supply of fresh slot handles. -/
structure MgrState where
  edgeNodes : List (String × NodeData)
  candidateNodes : List (String × NodeData)
  Edges : Int
  Candidates : Int
  edgePool : List (Nat × String)
  candidatePool : List (Nat × String)
  nextHandle : Nat
  events : List Event
  closedClients : List String

/-- The manager's injected environment: `scoreOf` models
`getNodeScoreLevel` (a deterministic score lookup for a node id) and
`weightNum` models `weightMgr.getWeightNum` (the spec's
`SlotCountForScore`: a deterministic slot count for a score). -/
structure Env where
  scoreOf : String → Nat
  weightNum : Nat → Nat

/-- Modelled from the spec: §4.4 `AllocateEdge(nodeID, slotCount)` of the
weight ledger (`weightMgr.distributeEdgeWeight`), whose implementation is
outside the file under verification.  It produces `wNum` distinct fresh
handles, inserts them into the edge selection pool associated with
`nodeID`, and returns the handle set for the caller to store on the
node. -/
def distributeEdgeWeight (nodeID : String) (wNum : Nat) (s : MgrState) :
    List Nat × MgrState :=
  let handles := (List.range wNum).map (fun i => s.nextHandle + i)
  (handles,
    { s with
      edgePool := s.edgePool ++ handles.map (fun h => (h, nodeID))
      nextHandle := s.nextHandle + wNum })

/-- Modelled from the spec: §4.4 `AllocateCandidate(nodeID, slotCount)`
(`weightMgr.distributeCandidateWeight`), as `distributeEdgeWeight` but for
the candidate pool. -/
def distributeCandidateWeight (nodeID : String) (wNum : Nat) (s : MgrState) :
    List Nat × MgrState :=
  let handles := (List.range wNum).map (fun i => s.nextHandle + i)
  (handles,
    { s with
      candidatePool := s.candidatePool ++ handles.map (fun h => (h, nodeID))
      nextHandle := s.nextHandle + wNum })

/-- Modelled from the spec: §4.4 `RepayEdge(handles)`
(`weightMgr.repayEdgeWeight`): removes exactly the given handles from the
edge selection pool; repaying an empty set is a no-op. -/
def repayEdgeWeight (handles : List Nat) (s : MgrState) : MgrState :=
  { s with edgePool := s.edgePool.filter (fun p => !(handles.contains p.1)) }

/-- Modelled from the spec: §4.4 `RepayCandidate(handles)`
(`weightMgr.repayCandidateWeight`). -/
def repayCandidateWeight (handles : List Nat) (s : MgrState) : MgrState :=
  { s with candidatePool := s.candidatePool.filter (fun p => !(handles.contains p.1)) }

/-- Modelled from the spec: §4.4 `ResetAll()` (`weightMgr.cleanWeights`):
clears both pools entirely. -/
def cleanWeights (s : MgrState) : MgrState :=
  { s with edgePool := [], candidatePool := [] }

/-- `DistributeNodeWeight` (manager.go:216).  Returns the updated node
(whose `selectWeights` field the Go code mutates in place) together with
the updated state. -/
def DistributeNodeWeight (env : Env) (node : NodeData) (s : MgrState) :
    NodeData × MgrState :=
  if node.abnormal then (node, s)
  else
    let wNum := env.weightNum (env.scoreOf node.NodeID)
    match node.type with
    | .Candidate =>
      let r := distributeCandidateWeight node.NodeID wNum s
      ({ node with selectWeights := r.1 }, r.2)
    | .Edge =>
      let r := distributeEdgeWeight node.NodeID wNum s
      ({ node with selectWeights := r.1 }, r.2)
    | .Other => (node, s)

/-- `RepayNodeWeight` (manager.go:231): repays the node's stored handle
set and sets `node.selectWeights = nil` (modelled as `[]`). -/
def RepayNodeWeight (node : NodeData) (s : MgrState) : NodeData × MgrState :=
  match node.type with
  | .Candidate => ({ node with selectWeights := [] }, repayCandidateWeight node.selectWeights s)
  | .Edge => ({ node with selectWeights := [] }, repayEdgeWeight node.selectWeights s)
  | .Other => (node, s)

/-- `storeEdgeNode` (manager.go:155) for a non-nil node.  `LoadOrStore`
finds the key already present: return immediately.  Otherwise the node is
inserted, the count incremented, weights distributed (the map entry is
the same object as `node`, so it carries the updated `selectWeights`),
and the online event is published. -/
def storeEdgeNode (env : Env) (node : NodeData) (s : MgrState) : MgrState :=
  if (s.edgeNodes.lookup node.NodeID).isSome then s
  else
    let r := DistributeNodeWeight env node { s with Edges := s.Edges + 1 }
    { r.2 with
      edgeNodes := (node.NodeID, r.1) :: s.edgeNodes
      events := .online node.NodeID :: r.2.events }

/-- `storeCandidateNode` (manager.go:172) for a non-nil node. -/
def storeCandidateNode (env : Env) (node : NodeData) (s : MgrState) : MgrState :=
  if (s.candidateNodes.lookup node.NodeID).isSome then s
  else
    let r := DistributeNodeWeight env node { s with Candidates := s.Candidates + 1 }
    { r.2 with
      candidateNodes := (node.NodeID, r.1) :: s.candidateNodes
      events := .online node.NodeID :: r.2.events }

/-- `deleteEdgeNode` (manager.go:190): repay weights, publish the offline
event, then `LoadAndDelete` the map entry and decrement the count only if
it was present.  Returns the (mutated) node together with the state. -/
def deleteEdgeNode (node : NodeData) (s : MgrState) : NodeData × MgrState :=
  let r := RepayNodeWeight node s
  let s2 := { r.2 with events := .offline node.NodeID :: r.2.events }
  let loaded := (s2.edgeNodes.lookup node.NodeID).isSome
  let s3 := { s2 with edgeNodes := s2.edgeNodes.filter (fun p => !(p.1 == node.NodeID)) }
  if loaded then (r.1, { s3 with Edges := s3.Edges - 1 }) else (r.1, s3)

/-- `deleteCandidateNode` (manager.go:203). -/
def deleteCandidateNode (node : NodeData) (s : MgrState) : NodeData × MgrState :=
  let r := RepayNodeWeight node s
  let s2 := { r.2 with events := .offline node.NodeID :: r.2.events }
  let loaded := (s2.candidateNodes.lookup node.NodeID).isSome
  let s3 := { s2 with candidateNodes := s2.candidateNodes.filter (fun p => !(p.1 == node.NodeID)) }
  if loaded then (r.1, { s3 with Candidates := s3.Candidates - 1 }) else (r.1, s3)

/-- `storeEdgeNode` on a possibly-nil pointer: `node == nil` is checked
first and the function silently returns (manager.go:156). -/
def storeEdgeNodePtr (env : Env) (onode : Option NodeData) (s : MgrState) :
    Option MgrState :=
  match onode with
  | none => some s
  | some node => some (storeEdgeNode env node s)

/-- `storeCandidateNode` on a possibly-nil pointer (manager.go:173). -/
def storeCandidateNodePtr (env : Env) (onode : Option NodeData) (s : MgrState) :
    Option MgrState :=
  match onode with
  | none => some s
  | some node => some (storeCandidateNode env node s)

/-- `RepayNodeWeight` on a possibly-nil pointer.  The function has no nil
guard and immediately reads `node.Type` (manager.go:232), so a nil
argument dereferences a nil pointer: a runtime panic, modelled as
`none`. -/
def RepayNodeWeightPtr (onode : Option NodeData) (s : MgrState) :
    Option (NodeData × MgrState) :=
  match onode with
  | none => none
  | some node => some (RepayNodeWeight node s)

/-- `DistributeNodeWeight` on a possibly-nil pointer.  The function has no
nil guard; its first action is `node.IsAbnormal()` (manager.go:217), a
method that evaluates the node's state, so a nil argument faults. -/
def DistributeNodeWeightPtr (env : Env) (onode : Option NodeData) (s : MgrState) :
    Option (NodeData × MgrState) :=
  match onode with
  | none => none
  | some node => some (DistributeNodeWeight env node s)

/-- `deleteEdgeNode` on a possibly-nil pointer.  No nil guard; the first
call is `RepayNodeWeight(node)` which dereferences the pointer
(manager.go:191), so a nil argument faults. -/
def deleteEdgeNodePtr (onode : Option NodeData) (s : MgrState) :
    Option (NodeData × MgrState) :=
  match onode with
  | none => none
  | some node => some (deleteEdgeNode node s)

/-- `deleteCandidateNode` on a possibly-nil pointer (manager.go:204). -/
def deleteCandidateNodePtr (onode : Option NodeData) (s : MgrState) :
    Option (NodeData × MgrState) :=
  match onode with
  | none => none
  | some node => some (deleteCandidateNode node s)

/-- `keepaliveTime = 30 * time.Second` in nanoseconds (manager.go:20). -/
def keepaliveTime : Int := 30 * 1000000000

/-- `time.Minute` in nanoseconds. -/
def minuteNs : Int := 60 * 1000000000

/-- `saveInfoInterval = 2` (manager.go:24). -/
def saveInfoInterval : Int := 2

/-- The amount added to `OnlineDuration` on a save tick:
`int((saveInfoInterval * keepaliveTime) / time.Minute)` (manager.go:260).
Go `time.Duration` division is truncated integer division. -/
def savedMinutes : Int := Int.tdiv (saveInfoInterval * keepaliveTime) minuteNs

/-- `nodeKeepalive` (manager.go:242).  `t` is the cutoff instant.  The Go
test is `if !lastTime.After(t)`, i.e. the node is dead when
`lastTime <= t`.  A dead node has its client transport closed and is
removed from the map of its tier.  Returns (alive?, mutated node,
state). -/
def nodeKeepalive (node : NodeData) (t : Int) (isSave : Bool) (s : MgrState) :
    Bool × NodeData × MgrState :=
  let lastTime := node.lastRequestTime
  if lastTime ≤ t then
    let s0 := { s with closedClients := node.NodeID :: s.closedClients }
    match node.type with
    | .Candidate =>
      let r := deleteCandidateNode node s0
      (false, r.1, r.2)
    | .Edge =>
      let r := deleteEdgeNode node s0
      (false, r.1, r.2)
    | .Other => (false, node, s0)
  else
    if isSave then
      (true, { node with OnlineDuration := node.OnlineDuration + savedMinutes }, s)
    else
      (true, node, s)

/-- The cutoff computed by `nodesKeepalive` (manager.go:268):
`t := time.Now().Add(-keepaliveTime)`. -/
def keepaliveCutoff (now : Int) : Int := now - keepaliveTime

/-- One step of the `Range` loop of `nodesKeepalive` over the edge map:
look up the entry for `id` (the pointer held at iteration time), run
`nodeKeepalive`, and, for a surviving node, write the in-place mutation
back through the shared pointer. -/
def keepaliveEdgeEntry (t : Int) (isSave : Bool) (s : MgrState) (id : String) :
    MgrState :=
  match s.edgeNodes.lookup id with
  | none => s
  | some node =>
    let r := nodeKeepalive node t isSave s
    if r.1 then
      { r.2.2 with
        edgeNodes := r.2.2.edgeNodes.map (fun p => if p.1 == id then (p.1, r.2.1) else p) }
    else r.2.2

/-- One step of the `Range` loop of `nodesKeepalive` over the candidate
map. -/
def keepaliveCandidateEntry (t : Int) (isSave : Bool) (s : MgrState) (id : String) :
    MgrState :=
  match s.candidateNodes.lookup id with
  | none => s
  | some node =>
    let r := nodeKeepalive node t isSave s
    if r.1 then
      { r.2.2 with
        candidateNodes := r.2.2.candidateNodes.map (fun p => if p.1 == id then (p.1, r.2.1) else p) }
    else r.2.2

/-- `nodesKeepalive` (manager.go:267) restricted to its registry and
ledger effects: sweep the edge map, then the candidate map, with cutoff
`now - keepaliveTime`.  (The snapshot batch sent to storage is an
external effect and is not modelled.) -/
def nodesKeepalive (now : Int) (isSave : Bool) (s : MgrState) : MgrState :=
  let t := keepaliveCutoff now
  let s1 := (s.edgeNodes.map Prod.fst).foldl (keepaliveEdgeEntry t isSave) s
  (s1.candidateNodes.map Prod.fst).foldl (keepaliveCandidateEntry t isSave) s1

/-- `bytesToGB` (manager.go:428). -/
def bytesToGB (bytes : Rat) : Rat := bytes / 1024 / 1024 / 1024

/-- The source's local float64 helper `min` (manager.go:447), named
`fmin` here to avoid clashing with the ambient order-theoretic `min`. -/
def fmin (a b : Rat) : Rat := if a < b then a else b

/-- The source's local float64 helper `max` (manager.go:455). -/
def fmax (a b : Rat) : Rat := if a > b then a else b

/-- `calculateMN` (manager.go:432): the NAT multiplier. -/
def calculateMN (natType : NatType) : Rat :=
  match natType with
  | .FullCone => 2.5
  | .Restricted => 2
  | .PortRestricted => 1.5
  | .Symmetric => 1
  | .Unknown => 0

/-- `weighting` (manager.go:463), the population weighting, including the
source's duplicated `num <= 5000` branch. -/
def weighting (num : Int) : Rat :=
  if num ≤ 2000 then 2
  else if num ≤ 5000 then 1.8
  else if num ≤ 5000 then 1.8
  else if num ≤ 10000 then 1.6
  else if num ≤ 15000 then 1.4
  else if num ≤ 25000 then 1.3
  else if num ≤ 35000 then 1.2
  else if num ≤ 50000 then 1.1
  else 1

/-- The body of one of `calculateMC`'s counting loops
(`for k := 1.0; k <= bound; k++ { sum += k }`, manager.go:489).  The
bound is always of the form `fmin _ 4 ≤ 4`, so the loop runs for
`k = 1, 2, 3, 4` guarded by `k ≤ bound`; it is unrolled here.  Each later
guard implies the earlier ones, so the unrolled sum equals the loop's. -/
def loopSum (bound : Rat) : Rat :=
  (if (1 : Rat) ≤ bound then (1 : Rat) else 0)
    + (if (2 : Rat) ≤ bound then (2 : Rat) else 0)
    + (if (3 : Rat) ≤ bound then (3 : Rat) else 0)
    + (if (4 : Rat) ≤ bound then (4 : Rat) else 0)

/-- `calculateMC` (manager.go:485): the CPU/memory score. -/
def calculateMC (i j : Rat) : Rat :=
  (loopSum (fmin i 4) + loopSum (fmin j 4)) * 0.7

/-- Go's `int(x)` conversion from float64: truncation toward zero,
expressed on rationals through the floor function. -/
def float2int (q : Rat) : Int :=
  if q < 0 then -⌊-q⌋ else ⌊q⌋

/-- `calculateAndSavePoints` (manager.go:412).  `edges` is `m.Edges`, the
current edge population.  The `1/max(size,1000)` subterm is float64
division (the untyped constant 1 adopts float64), modelled exactly. -/
def calculateAndSavePoints (edges : Int) (n : NodeData) : Int :=
  let mc := calculateMC (n.CPUCores : Rat) n.Memory
  let mb : Rat := 10 + fmin ((n.BandwidthUp : Rat) / 100) 5 * 2
  let mbn := mb * calculateMN n.NATType
  let size := bytesToGB n.DiskSpace
  let ms := fmin size 2000 * (1/100 + 1 / fmax size 1000)
  let w := weighting edges
  let online : Rat := 1
  float2int ((mc + mbn + ms) * w * online)

/-- One step of the `Range` loop of `redistributeNodeSelectWeights` over
the candidate map (manager.go:333): skip abnormal nodes, allocate
`getWeightNum(score)` fresh candidate slots, and store the handle set on
the node (in place, hence also in the map). -/
def redistributeCandidateEntry (env : Env) (st : MgrState) (p : String × NodeData) :
    MgrState :=
  if p.2.abnormal then st
  else
    let wNum := env.weightNum (env.scoreOf p.2.NodeID)
    let r := distributeCandidateWeight p.2.NodeID wNum st
    { r.2 with
      candidateNodes := r.2.candidateNodes.map
        (fun q => if q.1 == p.1 then (q.1, { q.2 with selectWeights := r.1 }) else q) }

/-- One step of the `Range` loop of `redistributeNodeSelectWeights` over
the edge map (manager.go:347). -/
def redistributeEdgeEntry (env : Env) (st : MgrState) (p : String × NodeData) :
    MgrState :=
  if p.2.abnormal then st
  else
    let wNum := env.weightNum (env.scoreOf p.2.NodeID)
    let r := distributeEdgeWeight p.2.NodeID wNum st
    { r.2 with
      edgeNodes := r.2.edgeNodes.map
        (fun q => if q.1 == p.1 then (q.1, { q.2 with selectWeights := r.1 }) else q) }

/-- `redistributeNodeSelectWeights` (manager.go:328): clean both pools,
then re-allocate for every non-abnormal candidate, then for every
non-abnormal edge node. -/
def redistributeNodeSelectWeights (env : Env) (s : MgrState) : MgrState :=
  let s0 := cleanWeights s
  let s1 := s0.candidateNodes.foldl (redistributeCandidateEntry env) s0
  s1.edgeNodes.foldl (redistributeEdgeEntry env) s1

/-- The slot count contributed by one registry entry during
redistribution: zero for an abnormal node, `getWeightNum(score)`
otherwise. -/
def entrySlots (env : Env) (p : String × NodeData) : Nat :=
  if p.2.abnormal then 0 else env.weightNum (env.scoreOf p.2.NodeID)

/-- The spec's statement of the population-weighting table (§4.3),
written from the spec's words for comparison with the source's
`weighting`. -/
def weightingSpec (p : Int) : Rat :=
  if p ≤ 2000 then 2
  else if p ≤ 5000 then 1.8
  else if p ≤ 10000 then 1.6
  else if p ≤ 15000 then 1.4
  else if p ≤ 25000 then 1.3
  else if p ≤ 35000 then 1.2
  else if p ≤ 50000 then 1.1
  else 1

/-! ### Sample values used for concrete evaluations -/

/-- A sample environment: score 3 for every node, slot count equal to the
score. -/
def sampleEnv : Env := { scoreOf := fun _ => 3, weightNum := fun sc => sc }

/-- A sample edge node holding two weight slots. -/
def sampleNode : NodeData :=
  { NodeID := "e1", type := .Edge, selectWeights := [5, 7],
    OnlineDuration := 10, BandwidthUp := 200, NATType := .FullCone,
    CPUCores := 4, Memory := 4, DiskSpace := 0,
    lastRequestTime := 1000, abnormal := false }

/-- The empty manager state. -/
def emptyState : MgrState :=
  { edgeNodes := [], candidateNodes := [], Edges := 0, Candidates := 0,
    edgePool := [], candidatePool := [], nextHandle := 0,
    events := [], closedClients := [] }

/-- A sample state in which `sampleNode` is registered as an edge node
and the edge pool holds exactly its two slots. -/
def sampleState : MgrState :=
  { emptyState with
    edgeNodes := [("e1", sampleNode)], Edges := 1,
    edgePool := [(5, "e1"), (7, "e1")], nextHandle := 8 }

/-- A sample candidate node holding one weight slot. -/
def sampleCandNode : NodeData :=
  { NodeID := "c2", type := .Candidate, selectWeights := [3],
    OnlineDuration := 5, BandwidthUp := 100, NATType := .Symmetric,
    CPUCores := 2, Memory := 2, DiskSpace := 0,
    lastRequestTime := 1000, abnormal := false }

/-- A sample state in which `sampleCandNode` is registered as a
candidate node and the candidate pool holds exactly its slot. -/
def sampleCandState : MgrState :=
  { emptyState with
    candidateNodes := [("c2", sampleCandNode)], Candidates := 1,
    candidatePool := [(3, "c2")], nextHandle := 4 }

/-- The candidate node of the spec's §8 scenario: 4 CPU cores, memory
input 4, upstream bandwidth 200, FullCone NAT, 1500 GB of disk. -/
def scenarioNode : NodeData :=
  { NodeID := "c1", type := .Candidate, selectWeights := [],
    OnlineDuration := 0, BandwidthUp := 200, NATType := .FullCone,
    CPUCores := 4, Memory := 4, DiskSpace := 1500 * 1024 ^ 3,
    lastRequestTime := 0, abnormal := false }

/-! ### Helper lemmas -/

lemma not_mem_filterKey (id : String) (l : List (String × NodeData)) :
    ∀ p ∈ l.filter (fun p => !(p.1 == id)), p.1 ≠ id := by
  intro p hp
  have h := List.mem_filter.1 hp
  simpa using h.2

lemma lookup_cons_self (id : String) (v : NodeData) (l : List (String × NodeData)) :
    ((id, v) :: l).lookup id = some v := by
  simp [List.lookup]

/-! ### C6: the population weighting table -/

/-- C6: the population weighting maps 2000, 2001, 5000, 5001, 10000,
10001 to 2.0, 1.8, 1.8, 1.6, 1.6, 1.4, and agrees everywhere with the
spec's §4.3 breakpoint table: the duplicated `<= 5000` branch of the
source never changes the result. -/
theorem weighting_table :
    weighting 2000 = 2 ∧ weighting 2001 = 1.8 ∧ weighting 5000 = 1.8
      ∧ weighting 5001 = 1.6 ∧ weighting 10000 = 1.6 ∧ weighting 10001 = 1.4
      ∧ ∀ p : Int, weighting p = weightingSpec p := by
  refine ⟨by norm_num [weighting], by norm_num [weighting], by norm_num [weighting],
    by norm_num [weighting], by norm_num [weighting], by norm_num [weighting],
    fun p => ?_⟩
  unfold weighting weightingSpec
  split_ifs <;> rfl

/-! ### C5: the §8 scoring scenario -/

/-- C5: for the spec's scenario node (4 cores, memory 4, bandwidth 200,
FullCone, 1500 GB disk) at edge population 1000, the points come out to
exactly 130, with cpu/mem score 14 and population weighting 2. -/
theorem calculateAndSavePoints_scenario :
    calculateMC 4 4 = 14
      ∧ weighting 1000 = 2
      ∧ calculateAndSavePoints 1000 scenarioNode = 130 := by
  refine ⟨?_, by norm_num [weighting], ?_⟩
  · norm_num [calculateMC, loopSum, fmin]
  · unfold calculateAndSavePoints scenarioNode
    norm_num [calculateMC, loopSum, fmin, fmax, bytesToGB, calculateMN, weighting, float2int]

lemma deleteEdgeNode_components (node : NodeData) (s : MgrState)
    (hT : node.type = .Edge) :
    (deleteEdgeNode node s).1 = { node with selectWeights := [] }
      ∧ (deleteEdgeNode node s).2.edgeNodes
          = s.edgeNodes.filter (fun p => !(p.1 == node.NodeID))
      ∧ (deleteEdgeNode node s).2.candidateNodes = s.candidateNodes
      ∧ (deleteEdgeNode node s).2.edgePool
          = s.edgePool.filter (fun p => !(node.selectWeights.contains p.1))
      ∧ (deleteEdgeNode node s).2.candidatePool = s.candidatePool
      ∧ (deleteEdgeNode node s).2.events = .offline node.NodeID :: s.events
      ∧ (deleteEdgeNode node s).2.closedClients = s.closedClients
      ∧ (deleteEdgeNode node s).2.Edges
          = (if (s.edgeNodes.lookup node.NodeID).isSome then s.Edges - 1 else s.Edges)
      ∧ (deleteEdgeNode node s).2.Candidates = s.Candidates := by
  unfold deleteEdgeNode RepayNodeWeight repayEdgeWeight
  rw [hT]
  by_cases hl : (s.edgeNodes.lookup node.NodeID).isSome
  · simp [hl]
  · simp [hl]

lemma deleteCandidateNode_components (node : NodeData) (s : MgrState)
    (hT : node.type = .Candidate) :
    (deleteCandidateNode node s).1 = { node with selectWeights := [] }
      ∧ (deleteCandidateNode node s).2.candidateNodes
          = s.candidateNodes.filter (fun p => !(p.1 == node.NodeID))
      ∧ (deleteCandidateNode node s).2.edgeNodes = s.edgeNodes
      ∧ (deleteCandidateNode node s).2.candidatePool
          = s.candidatePool.filter (fun p => !(node.selectWeights.contains p.1))
      ∧ (deleteCandidateNode node s).2.edgePool = s.edgePool
      ∧ (deleteCandidateNode node s).2.events = .offline node.NodeID :: s.events
      ∧ (deleteCandidateNode node s).2.closedClients = s.closedClients
      ∧ (deleteCandidateNode node s).2.Candidates
          = (if (s.candidateNodes.lookup node.NodeID).isSome then s.Candidates - 1 else s.Candidates)
      ∧ (deleteCandidateNode node s).2.Edges = s.Edges := by
  unfold deleteCandidateNode RepayNodeWeight repayCandidateWeight
  rw [hT]
  by_cases hl : (s.candidateNodes.lookup node.NodeID).isSome
  · simp [hl]
  · simp [hl]

/-! ### C1: the keepalive liveness boundary -/

/-- C1 (counterexample): a node whose last-contact timestamp equals the
cutoff `now - keepaliveTime` exactly is classified dead, not alive: the
Go test is `!lastTime.After(t)`, which is true at equality, so
`nodeKeepalive` returns false and removes the node from the edge map. -/
theorem nodeKeepalive_cutoff_equality_dead :
    sampleNode.lastRequestTime = keepaliveCutoff (1000 + keepaliveTime)
      ∧ (nodeKeepalive sampleNode (keepaliveCutoff (1000 + keepaliveTime)) false sampleState).1
          = false
      ∧ (nodeKeepalive sampleNode (keepaliveCutoff (1000 + keepaliveTime)) false
            sampleState).2.2.edgeNodes = [] :=
  ⟨rfl, rfl, rfl⟩

/-- C1 (amended): a node examined by a keepalive tick with cutoff
`t = now - keepaliveTime` is classified alive iff its last-contact
timestamp is strictly after `t`; at `lastContact = t` or earlier it is
classified dead: its client transport is closed, and it is removed from
its tier map — the edge map for an edge-typed node, the candidate map
for a candidate-typed node. -/
theorem nodeKeepalive_boundary (node : NodeData) (now : Int) (isSave : Bool) (s : MgrState) :
    ((nodeKeepalive node (keepaliveCutoff now) isSave s).1 = true
        ↔ keepaliveCutoff now < node.lastRequestTime)
      ∧ (node.lastRequestTime ≤ keepaliveCutoff now →
          (nodeKeepalive node (keepaliveCutoff now) isSave s).2.2.closedClients
              = node.NodeID :: s.closedClients
            ∧ (node.type = .Edge →
                ∀ p ∈ (nodeKeepalive node (keepaliveCutoff now) isSave s).2.2.edgeNodes,
                  p.1 ≠ node.NodeID)
            ∧ (node.type = .Candidate →
                ∀ p ∈ (nodeKeepalive node (keepaliveCutoff now) isSave s).2.2.candidateNodes,
                  p.1 ≠ node.NodeID)) := by
  constructor
  · rcases le_or_lt node.lastRequestTime (keepaliveCutoff now) with h | h
    · have h' : ¬ keepaliveCutoff now < node.lastRequestTime := not_lt.2 h
      unfold nodeKeepalive
      rw [if_pos h]
      cases htype : node.type <;> simp [h']
    · unfold nodeKeepalive
      rw [if_neg (not_le.2 h)]
      cases isSave <;> simp [h]
  · intro h
    unfold nodeKeepalive
    rw [if_pos h]
    cases htype : node.type with
    | Edge =>
      have hc := deleteEdgeNode_components node
        { s with closedClients := node.NodeID :: s.closedClients } htype
      refine ⟨hc.2.2.2.2.2.2.1, fun _ p hp => ?_, fun hcontra => NodeType.noConfusion hcontra⟩
      rw [hc.2.1] at hp
      exact not_mem_filterKey node.NodeID _ p hp
    | Candidate =>
      have hc := deleteCandidateNode_components node
        { s with closedClients := node.NodeID :: s.closedClients } htype
      refine ⟨hc.2.2.2.2.2.2.1, fun hcontra => NodeType.noConfusion hcontra,
        fun _ p hp => ?_⟩
      rw [hc.2.1] at hp
      exact not_mem_filterKey node.NodeID _ p hp
    | Other =>
      exact ⟨rfl, fun hcontra => NodeType.noConfusion hcontra,
        fun hcontra => NodeType.noConfusion hcontra⟩

/-- C1 (witness for the amended theorem): a dead edge node and a dead
candidate node, each with last contact exactly at the cutoff. -/
theorem nodeKeepalive_boundary_witness :
    (((nodeKeepalive sampleNode (keepaliveCutoff (1000 + keepaliveTime)) false sampleState).1
            = true
          ↔ keepaliveCutoff (1000 + keepaliveTime) < sampleNode.lastRequestTime)
        ∧ (nodeKeepalive sampleNode (keepaliveCutoff (1000 + keepaliveTime)) false
              sampleState).2.2.closedClients
            = sampleNode.NodeID :: sampleState.closedClients
        ∧ (∀ p ∈ (nodeKeepalive sampleNode (keepaliveCutoff (1000 + keepaliveTime)) false
              sampleState).2.2.edgeNodes, p.1 ≠ sampleNode.NodeID))
      ∧ ((nodeKeepalive sampleCandNode (keepaliveCutoff (1000 + keepaliveTime)) false
              sampleCandState).2.2.closedClients
            = sampleCandNode.NodeID :: sampleCandState.closedClients
          ∧ (∀ p ∈ (nodeKeepalive sampleCandNode (keepaliveCutoff (1000 + keepaliveTime)) false
                sampleCandState).2.2.candidateNodes, p.1 ≠ sampleCandNode.NodeID)) :=
  ⟨⟨(nodeKeepalive_boundary sampleNode (1000 + keepaliveTime) false sampleState).1,
      ((nodeKeepalive_boundary sampleNode (1000 + keepaliveTime) false sampleState).2
          (by decide)).1,
      ((nodeKeepalive_boundary sampleNode (1000 + keepaliveTime) false sampleState).2
          (by decide)).2.1 rfl⟩,
    ⟨((nodeKeepalive_boundary sampleCandNode (1000 + keepaliveTime) false sampleCandState).2
          (by decide)).1,
      ((nodeKeepalive_boundary sampleCandNode (1000 + keepaliveTime) false sampleCandState).2
          (by decide)).2.2 rfl⟩⟩

/-! ### C8: nil-node handling -/

/-- C8 (counterexample): the claim that every mutating registry operation
is a silent no-op on a nil node is false: `deleteEdgeNode`,
`deleteCandidateNode`, `DistributeNodeWeight` and `RepayNodeWeight` have
no nil guard and dereference the pointer (`node.Type`,
`node.IsAbnormal()`), faulting on nil (modelled as a `none` result rather
than `some` of an unchanged state). -/
theorem nil_node_faults :
    deleteEdgeNodePtr none emptyState = none
      ∧ deleteCandidateNodePtr none emptyState = none
      ∧ DistributeNodeWeightPtr sampleEnv none emptyState = none
      ∧ RepayNodeWeightPtr none emptyState = none :=
  ⟨rfl, rfl, rfl, rfl⟩

/-- C8 (amended): only `storeEdgeNode` and `storeCandidateNode` check for
a nil node and silently no-op; the four other mutating operations
dereference the nil pointer and fault. -/
theorem nil_node_guards (env : Env) (s : MgrState) :
    storeEdgeNodePtr env none s = some s
      ∧ storeCandidateNodePtr env none s = some s
      ∧ deleteEdgeNodePtr none s = none
      ∧ deleteCandidateNodePtr none s = none
      ∧ DistributeNodeWeightPtr env none s = none
      ∧ RepayNodeWeightPtr none s = none :=
  ⟨rfl, rfl, rfl, rfl, rfl, rfl⟩

/-! ### C9: online-duration accrual -/

/-- C9 (counterexample): on a save tick an alive node's `OnlineDuration`
grows by `savedMinutes = int((saveInfoInterval*keepaliveTime)/Minute) = 1`
minute, not by the keepalive period expressed in minutes
(`keepaliveTime/Minute = 1/2`). -/
theorem nodeKeepalive_accrual_not_period :
    (nodeKeepalive sampleNode 999 true sampleState).2.1.OnlineDuration
        = sampleNode.OnlineDuration + savedMinutes
      ∧ savedMinutes = 1
      ∧ ((keepaliveTime : ℚ) / (minuteNs : ℚ) ≠ (savedMinutes : ℚ)) := by
  refine ⟨rfl, rfl, ?_⟩
  have h1 : savedMinutes = 1 := rfl
  rw [h1]
  norm_num [keepaliveTime, minuteNs]

/-- C9 (amended): on a save tick each node classified alive accrues
exactly `savedMinutes = 1` minute of online duration (the elapsed wall
time between save ticks, `saveInfoInterval * keepaliveTime`, in
minutes); non-save ticks accrue nothing. -/
theorem nodeKeepalive_accrual (node : NodeData) (t : Int) (s : MgrState)
    (h : t < node.lastRequestTime) :
    (nodeKeepalive node t true s).2.1.OnlineDuration = node.OnlineDuration + 1
      ∧ (nodeKeepalive node t false s).2.1.OnlineDuration = node.OnlineDuration
      ∧ savedMinutes = 1 := by
  have h' : ¬ node.lastRequestTime ≤ t := not_le.2 h
  unfold nodeKeepalive
  simp [h']
  rfl

/-- C9 (witness for the amended theorem). -/
theorem nodeKeepalive_accrual_witness :
    (nodeKeepalive sampleNode 999 true sampleState).2.1.OnlineDuration
        = sampleNode.OnlineDuration + 1
      ∧ (nodeKeepalive sampleNode 999 false sampleState).2.1.OnlineDuration
          = sampleNode.OnlineDuration
      ∧ savedMinutes = 1 :=
  nodeKeepalive_accrual sampleNode 999 sampleState (by decide)

/-! ### C10: repayment is idempotent -/

/-- C10: `RepayNodeWeight` clears `selectWeights`, so for an edge or
candidate node a second repayment repays the empty handle set: it changes
neither the node nor the state. -/
theorem RepayNodeWeight_idempotent (node : NodeData) (s : MgrState)
    (h : node.type = .Edge ∨ node.type = .Candidate) :
    (RepayNodeWeight node s).1.selectWeights = []
      ∧ RepayNodeWeight (RepayNodeWeight node s).1 (RepayNodeWeight node s).2
          = ((RepayNodeWeight node s).1, (RepayNodeWeight node s).2) := by
  rcases h with h | h <;>
    simp [RepayNodeWeight, repayEdgeWeight, repayCandidateWeight, h]

/-- C10 (witness). -/
theorem RepayNodeWeight_idempotent_witness :
    (RepayNodeWeight sampleNode sampleState).1.selectWeights = []
      ∧ RepayNodeWeight (RepayNodeWeight sampleNode sampleState).1
            (RepayNodeWeight sampleNode sampleState).2
          = ((RepayNodeWeight sampleNode sampleState).1,
              (RepayNodeWeight sampleNode sampleState).2) :=
  RepayNodeWeight_idempotent sampleNode sampleState (Or.inl rfl)

lemma storeEdgeNode_absent (env : Env) (node : NodeData) (s : MgrState)
    (hT : node.type = .Edge) (hA : s.edgeNodes.lookup node.NodeID = none) :
    (storeEdgeNode env node s).Edges = s.Edges + 1
      ∧ (storeEdgeNode env node s).events = .online node.NodeID :: s.events
      ∧ (storeEdgeNode env node s).edgePool.length
          = s.edgePool.length
            + (if node.abnormal = true then 0 else env.weightNum (env.scoreOf node.NodeID))
      ∧ (storeEdgeNode env node s).candidatePool = s.candidatePool
      ∧ ∃ v, (storeEdgeNode env node s).edgeNodes = (node.NodeID, v) :: s.edgeNodes := by
  unfold storeEdgeNode DistributeNodeWeight distributeEdgeWeight
  rw [hA]
  by_cases hab : node.abnormal <;> simp [hab, hT]

lemma storeCandidateNode_absent (env : Env) (node : NodeData) (s : MgrState)
    (hT : node.type = .Candidate) (hA : s.candidateNodes.lookup node.NodeID = none) :
    (storeCandidateNode env node s).Candidates = s.Candidates + 1
      ∧ (storeCandidateNode env node s).events = .online node.NodeID :: s.events
      ∧ (storeCandidateNode env node s).candidatePool.length
          = s.candidatePool.length
            + (if node.abnormal = true then 0 else env.weightNum (env.scoreOf node.NodeID))
      ∧ (storeCandidateNode env node s).edgePool = s.edgePool
      ∧ ∃ v, (storeCandidateNode env node s).candidateNodes
          = (node.NodeID, v) :: s.candidateNodes := by
  unfold storeCandidateNode DistributeNodeWeight distributeCandidateWeight
  rw [hA]
  by_cases hab : node.abnormal <;> simp [hab, hT]

lemma storeEdgeNode_present (env : Env) (node : NodeData) (s : MgrState)
    (hP : (s.edgeNodes.lookup node.NodeID).isSome) :
    storeEdgeNode env node s = s := by
  unfold storeEdgeNode
  rw [if_pos hP]

lemma storeCandidateNode_present (env : Env) (node : NodeData) (s : MgrState)
    (hP : (s.candidateNodes.lookup node.NodeID).isSome) :
    storeCandidateNode env node s = s := by
  unfold storeCandidateNode
  rw [if_pos hP]

/-! ### C3: join is idempotent per identity -/

/-- C3: storing the same node twice in its tier changes the live count by
exactly one, publishes exactly one online event, allocates the weight
slots exactly once (none when the node is abnormal), and the second call
leaves the whole state unchanged. -/
theorem storeNode_idempotent (env : Env) (node : NodeData) (s : MgrState) :
    (node.type = .Edge → s.edgeNodes.lookup node.NodeID = none →
      storeEdgeNode env node (storeEdgeNode env node s) = storeEdgeNode env node s
        ∧ (storeEdgeNode env node s).Edges = s.Edges + 1
        ∧ (storeEdgeNode env node s).events = .online node.NodeID :: s.events
        ∧ (storeEdgeNode env node s).edgePool.length
            = s.edgePool.length
              + (if node.abnormal = true then 0 else env.weightNum (env.scoreOf node.NodeID)))
    ∧ (node.type = .Candidate → s.candidateNodes.lookup node.NodeID = none →
      storeCandidateNode env node (storeCandidateNode env node s) = storeCandidateNode env node s
        ∧ (storeCandidateNode env node s).Candidates = s.Candidates + 1
        ∧ (storeCandidateNode env node s).events = .online node.NodeID :: s.events
        ∧ (storeCandidateNode env node s).candidatePool.length
            = s.candidatePool.length
              + (if node.abnormal = true then 0 else env.weightNum (env.scoreOf node.NodeID))) := by
  constructor
  · intro hT hA
    obtain ⟨hE, hev, hlen, hcp, v, hmap⟩ := storeEdgeNode_absent env node s hT hA
    refine ⟨?_, hE, hev, hlen⟩
    apply storeEdgeNode_present
    rw [hmap, lookup_cons_self]
    rfl
  · intro hT hA
    obtain ⟨hE, hev, hlen, hcp, v, hmap⟩ := storeCandidateNode_absent env node s hT hA
    refine ⟨?_, hE, hev, hlen⟩
    apply storeCandidateNode_present
    rw [hmap, lookup_cons_self]
    rfl

/-- C3 (witness): both halves instantiated on concrete nodes and the
empty state. -/
theorem storeNode_idempotent_witness :
    (storeEdgeNode sampleEnv sampleNode (storeEdgeNode sampleEnv sampleNode emptyState)
          = storeEdgeNode sampleEnv sampleNode emptyState
        ∧ (storeEdgeNode sampleEnv sampleNode emptyState).Edges = emptyState.Edges + 1
        ∧ (storeEdgeNode sampleEnv sampleNode emptyState).events
            = .online sampleNode.NodeID :: emptyState.events
        ∧ (storeEdgeNode sampleEnv sampleNode emptyState).edgePool.length
            = emptyState.edgePool.length
              + (if sampleNode.abnormal = true then 0
                  else sampleEnv.weightNum (sampleEnv.scoreOf sampleNode.NodeID)))
      ∧ (storeCandidateNode sampleEnv scenarioNode
            (storeCandidateNode sampleEnv scenarioNode emptyState)
          = storeCandidateNode sampleEnv scenarioNode emptyState
        ∧ (storeCandidateNode sampleEnv scenarioNode emptyState).Candidates
            = emptyState.Candidates + 1
        ∧ (storeCandidateNode sampleEnv scenarioNode emptyState).events
            = .online scenarioNode.NodeID :: emptyState.events
        ∧ (storeCandidateNode sampleEnv scenarioNode emptyState).candidatePool.length
            = emptyState.candidatePool.length
              + (if scenarioNode.abnormal = true then 0
                  else sampleEnv.weightNum (sampleEnv.scoreOf scenarioNode.NodeID))) :=
  ⟨(storeNode_idempotent sampleEnv sampleNode emptyState).1 rfl rfl,
    (storeNode_idempotent sampleEnv scenarioNode emptyState).2 rfl rfl⟩

/-! ### C2: leave repays unconditionally, removes conditionally -/

/-- C2: `deleteEdgeNode`/`deleteCandidateNode` repay the node's weight
slots and publish the offline event unconditionally (whether or not the
map entry exists); the tier count is decremented exactly when the entry
was present; under the ledger invariant that the node's pool entries are
exactly the handles stored on the node, the node's identity holds zero
slots in its tier pool afterwards, and no other handle is removed. -/
theorem deleteNode_repays_unconditionally (node : NodeData) (s : MgrState) :
    (node.type = .Edge →
      (∀ p ∈ s.edgePool, p.2 = node.NodeID → p.1 ∈ node.selectWeights) →
      (deleteEdgeNode node s).2.events = .offline node.NodeID :: s.events
        ∧ (∀ p ∈ (deleteEdgeNode node s).2.edgePool, p.2 ≠ node.NodeID)
        ∧ (∀ p ∈ s.edgePool, p.1 ∉ node.selectWeights → p ∈ (deleteEdgeNode node s).2.edgePool)
        ∧ (deleteEdgeNode node s).1.selectWeights = []
        ∧ ((s.edgeNodes.lookup node.NodeID).isSome = true →
            (deleteEdgeNode node s).2.Edges = s.Edges - 1)
        ∧ ((s.edgeNodes.lookup node.NodeID).isSome = false →
            (deleteEdgeNode node s).2.Edges = s.Edges))
    ∧ (node.type = .Candidate →
      (∀ p ∈ s.candidatePool, p.2 = node.NodeID → p.1 ∈ node.selectWeights) →
      (deleteCandidateNode node s).2.events = .offline node.NodeID :: s.events
        ∧ (∀ p ∈ (deleteCandidateNode node s).2.candidatePool, p.2 ≠ node.NodeID)
        ∧ (∀ p ∈ s.candidatePool, p.1 ∉ node.selectWeights →
            p ∈ (deleteCandidateNode node s).2.candidatePool)
        ∧ (deleteCandidateNode node s).1.selectWeights = []
        ∧ ((s.candidateNodes.lookup node.NodeID).isSome = true →
            (deleteCandidateNode node s).2.Candidates = s.Candidates - 1)
        ∧ ((s.candidateNodes.lookup node.NodeID).isSome = false →
            (deleteCandidateNode node s).2.Candidates = s.Candidates)) := by
  constructor
  · intro hT hOwn
    obtain ⟨hn, hmap, hcn, hpool, hcp, hev, hcc, hedges, hcand⟩ :=
      deleteEdgeNode_components node s hT
    refine ⟨hev, ?_, ?_, by rw [hn], ?_, ?_⟩
    · intro p hp hpid
      rw [hpool] at hp
      have hm := List.mem_filter.1 hp
      have hni : p.1 ∉ node.selectWeights := by simpa using hm.2
      exact hni (hOwn p hm.1 hpid)
    · intro p hp hni
      rw [hpool]
      refine List.mem_filter.2 ⟨hp, by simpa using hni⟩
    · intro hsome
      rw [hedges, if_pos hsome]
    · intro hnone
      rw [hedges, hnone]
      simp
  · intro hT hOwn
    obtain ⟨hn, hmap, hcn, hpool, hcp, hev, hcc, hedges, hcand⟩ :=
      deleteCandidateNode_components node s hT
    refine ⟨hev, ?_, ?_, by rw [hn], ?_, ?_⟩
    · intro p hp hpid
      rw [hpool] at hp
      have hm := List.mem_filter.1 hp
      have hni : p.1 ∉ node.selectWeights := by simpa using hm.2
      exact hni (hOwn p hm.1 hpid)
    · intro p hp hni
      rw [hpool]
      refine List.mem_filter.2 ⟨hp, by simpa using hni⟩
    · intro hsome
      rw [hedges, if_pos hsome]
    · intro hnone
      rw [hedges, hnone]
      simp

/-- C2 (witness): the edge half instantiated on `sampleNode`, registered
in `sampleState` with its two pool slots. -/
theorem deleteNode_repays_unconditionally_witness :
    (deleteEdgeNode sampleNode sampleState).2.events
        = .offline sampleNode.NodeID :: sampleState.events
      ∧ (∀ p ∈ (deleteEdgeNode sampleNode sampleState).2.edgePool, p.2 ≠ sampleNode.NodeID)
      ∧ (∀ p ∈ sampleState.edgePool, p.1 ∉ sampleNode.selectWeights →
          p ∈ (deleteEdgeNode sampleNode sampleState).2.edgePool)
      ∧ (deleteEdgeNode sampleNode sampleState).1.selectWeights = []
      ∧ ((sampleState.edgeNodes.lookup sampleNode.NodeID).isSome = true →
          (deleteEdgeNode sampleNode sampleState).2.Edges = sampleState.Edges - 1)
      ∧ ((sampleState.edgeNodes.lookup sampleNode.NodeID).isSome = false →
          (deleteEdgeNode sampleNode sampleState).2.Edges = sampleState.Edges) :=
  (deleteNode_repays_unconditionally sampleNode sampleState).1 rfl (by decide)

lemma candEntry_nextHandle (env : Env) (st : MgrState) (p : String × NodeData) :
    st.nextHandle ≤ (redistributeCandidateEntry env st p).nextHandle := by
  unfold redistributeCandidateEntry distributeCandidateWeight
  by_cases hab : p.2.abnormal <;> simp [hab]

lemma edgeEntry_nextHandle (env : Env) (st : MgrState) (p : String × NodeData) :
    st.nextHandle ≤ (redistributeEdgeEntry env st p).nextHandle := by
  unfold redistributeEdgeEntry distributeEdgeWeight
  by_cases hab : p.2.abnormal <;> simp [hab]

lemma candFold_nextHandle (env : Env) (l : List (String × NodeData)) (st : MgrState) :
    st.nextHandle ≤ (l.foldl (redistributeCandidateEntry env) st).nextHandle := by
  induction l generalizing st with
  | nil => exact le_refl _
  | cons hd tl ih =>
    exact le_trans (candEntry_nextHandle env st hd) (ih _)

lemma edgeFold_nextHandle (env : Env) (l : List (String × NodeData)) (st : MgrState) :
    st.nextHandle ≤ (l.foldl (redistributeEdgeEntry env) st).nextHandle := by
  induction l generalizing st with
  | nil => exact le_refl _
  | cons hd tl ih =>
    exact le_trans (edgeEntry_nextHandle env st hd) (ih _)

lemma candFold_edgePool (env : Env) (l : List (String × NodeData)) (st : MgrState) :
    (l.foldl (redistributeCandidateEntry env) st).edgePool = st.edgePool := by
  induction l generalizing st with
  | nil => rfl
  | cons hd tl ih =>
    rw [List.foldl_cons, ih]
    unfold redistributeCandidateEntry distributeCandidateWeight
    by_cases hab : hd.2.abnormal <;> simp [hab]

lemma candFold_edgeNodes (env : Env) (l : List (String × NodeData)) (st : MgrState) :
    (l.foldl (redistributeCandidateEntry env) st).edgeNodes = st.edgeNodes := by
  induction l generalizing st with
  | nil => rfl
  | cons hd tl ih =>
    rw [List.foldl_cons, ih]
    unfold redistributeCandidateEntry distributeCandidateWeight
    by_cases hab : hd.2.abnormal <;> simp [hab]

lemma edgeFold_candidatePool (env : Env) (l : List (String × NodeData)) (st : MgrState) :
    (l.foldl (redistributeEdgeEntry env) st).candidatePool = st.candidatePool := by
  induction l generalizing st with
  | nil => rfl
  | cons hd tl ih =>
    rw [List.foldl_cons, ih]
    unfold redistributeEdgeEntry distributeEdgeWeight
    by_cases hab : hd.2.abnormal <;> simp [hab]

lemma candFold_len (env : Env) (l : List (String × NodeData)) (st : MgrState) :
    (l.foldl (redistributeCandidateEntry env) st).candidatePool.length
      = st.candidatePool.length + (l.map (entrySlots env)).sum := by
  induction l generalizing st with
  | nil => simp
  | cons hd tl ih =>
    rw [List.foldl_cons, ih]
    unfold redistributeCandidateEntry distributeCandidateWeight entrySlots
    by_cases hab : hd.2.abnormal
    · simp [hab]
    · simp [hab]
      omega

lemma edgeFold_len (env : Env) (l : List (String × NodeData)) (st : MgrState) :
    (l.foldl (redistributeEdgeEntry env) st).edgePool.length
      = st.edgePool.length + (l.map (entrySlots env)).sum := by
  induction l generalizing st with
  | nil => simp
  | cons hd tl ih =>
    rw [List.foldl_cons, ih]
    unfold redistributeEdgeEntry distributeEdgeWeight entrySlots
    by_cases hab : hd.2.abnormal
    · simp [hab]
    · simp [hab]
      omega

lemma candFold_mem (env : Env) (l : List (String × NodeData)) (st : MgrState) :
    ∀ p ∈ (l.foldl (redistributeCandidateEntry env) st).candidatePool,
      p ∈ st.candidatePool
        ∨ (st.nextHandle ≤ p.1 ∧ ∃ q ∈ l, q.2.abnormal = false ∧ p.2 = q.2.NodeID) := by
  induction l generalizing st with
  | nil =>
    intro p hp
    exact Or.inl hp
  | cons hd tl ih =>
    intro p hp
    rw [List.foldl_cons] at hp
    rcases ih (redistributeCandidateEntry env st hd) p hp with hin | ⟨hge, q, hq, hab, hid⟩
    · by_cases hab : hd.2.abnormal
      · unfold redistributeCandidateEntry at hin
        rw [if_pos hab] at hin
        exact Or.inl hin
      · unfold redistributeCandidateEntry distributeCandidateWeight at hin
        simp only [hab, Bool.false_eq_true, if_false, List.mem_append] at hin
        rcases hin with h1 | h2
        · exact Or.inl h1
        · right
          simp only [List.mem_map, List.mem_range] at h2
          obtain ⟨h, ⟨i, hi, rfl⟩, rfl⟩ := h2
          exact ⟨Nat.le_add_right _ _, hd, List.mem_cons_self _ _, Bool.not_eq_true _ ▸ hab,
            rfl⟩
    · right
      exact ⟨le_trans (candEntry_nextHandle env st hd) hge, q, List.mem_cons_of_mem _ hq,
        hab, hid⟩

lemma edgeFold_mem (env : Env) (l : List (String × NodeData)) (st : MgrState) :
    ∀ p ∈ (l.foldl (redistributeEdgeEntry env) st).edgePool,
      p ∈ st.edgePool
        ∨ (st.nextHandle ≤ p.1 ∧ ∃ q ∈ l, q.2.abnormal = false ∧ p.2 = q.2.NodeID) := by
  induction l generalizing st with
  | nil =>
    intro p hp
    exact Or.inl hp
  | cons hd tl ih =>
    intro p hp
    rw [List.foldl_cons] at hp
    rcases ih (redistributeEdgeEntry env st hd) p hp with hin | ⟨hge, q, hq, hab, hid⟩
    · by_cases hab : hd.2.abnormal
      · unfold redistributeEdgeEntry at hin
        rw [if_pos hab] at hin
        exact Or.inl hin
      · unfold redistributeEdgeEntry distributeEdgeWeight at hin
        simp only [hab, Bool.false_eq_true, if_false, List.mem_append] at hin
        rcases hin with h1 | h2
        · exact Or.inl h1
        · right
          simp only [List.mem_map, List.mem_range] at h2
          obtain ⟨h, ⟨i, hi, rfl⟩, rfl⟩ := h2
          exact ⟨Nat.le_add_right _ _, hd, List.mem_cons_self _ _, Bool.not_eq_true _ ▸ hab,
            rfl⟩
    · right
      exact ⟨le_trans (edgeEntry_nextHandle env st hd) hge, q, List.mem_cons_of_mem _ hq,
        hab, hid⟩

/-! ### C4: redistribution is a full reset -/

/-- C4: after `redistributeNodeSelectWeights` the total number of pool
slots equals the sum of the slot count (`getWeightNum` of the node's
score) over all registered non-abnormal candidates and edges; every
surviving pool entry belongs to a currently registered non-abnormal node
of the matching tier and carries a handle allocated during this run
(`s.nextHandle ≤ handle`), so no allocation from before the run survives
and abnormal nodes hold no slots. -/
theorem redistribute_full_reset (env : Env) (s : MgrState) :
    ((redistributeNodeSelectWeights env s).candidatePool.length
          + (redistributeNodeSelectWeights env s).edgePool.length
        = (s.candidateNodes.map (entrySlots env)).sum
          + (s.edgeNodes.map (entrySlots env)).sum)
      ∧ (∀ p ∈ (redistributeNodeSelectWeights env s).candidatePool,
          s.nextHandle ≤ p.1
            ∧ ∃ q ∈ s.candidateNodes, q.2.abnormal = false ∧ p.2 = q.2.NodeID)
      ∧ (∀ p ∈ (redistributeNodeSelectWeights env s).edgePool,
          s.nextHandle ≤ p.1
            ∧ ∃ q ∈ s.edgeNodes, q.2.abnormal = false ∧ p.2 = q.2.NodeID) := by
  unfold redistributeNodeSelectWeights
  have hs0cn : (cleanWeights s).candidateNodes = s.candidateNodes := rfl
  have hs0en : (cleanWeights s).edgeNodes = s.edgeNodes := rfl
  have hs0cp : (cleanWeights s).candidatePool = [] := rfl
  have hs0ep : (cleanWeights s).edgePool = [] := rfl
  have hs0nh : (cleanWeights s).nextHandle = s.nextHandle := rfl
  have h1en : ((cleanWeights s).candidateNodes.foldl (redistributeCandidateEntry env)
      (cleanWeights s)).edgeNodes = s.edgeNodes := by
    rw [candFold_edgeNodes, hs0en]
  refine ⟨?_, ?_, ?_⟩
  · rw [edgeFold_candidatePool, candFold_len, hs0cp, hs0cn, edgeFold_len, candFold_edgePool,
      hs0ep, h1en]
    simp
  · intro p hp
    rw [edgeFold_candidatePool] at hp
    rcases candFold_mem env _ _ p hp with hin | ⟨hge, q, hq, hab, hid⟩
    · rw [hs0cp] at hin
      exact absurd hin (List.not_mem_nil p)
    · rw [hs0nh] at hge
      rw [hs0cn] at hq
      exact ⟨hge, q, hq, hab, hid⟩
  · intro p hp
    rcases edgeFold_mem env _ _ p hp with hin | ⟨hge, q, hq, hab, hid⟩
    · rw [candFold_edgePool, hs0ep] at hin
      exact absurd hin (List.not_mem_nil p)
    · rw [h1en] at hq
      refine ⟨le_trans ?_ hge, q, hq, hab, hid⟩
      rw [← hs0nh]
      exact candFold_nextHandle env _ _

lemma fmin_mono_left {a b c : ℚ} (h : a ≤ b) : fmin a c ≤ fmin b c := by
  unfold fmin
  split_ifs <;> linarith

lemma fmin_nonneg {a b : ℚ} (ha : 0 ≤ a) (hb : 0 ≤ b) : 0 ≤ fmin a b := by
  unfold fmin
  split_ifs <;> assumption

lemma fmax_ge_right (a b : ℚ) : b ≤ fmax a b := by
  unfold fmax
  split_ifs <;> linarith

lemma indicator_mono {k a b : ℚ} (hk : 0 ≤ k) (h : a ≤ b) :
    (if k ≤ a then k else 0) ≤ (if k ≤ b then k else 0) := by
  split_ifs <;> first | exact le_refl _ | linarith

lemma loopSum_nonneg (b : ℚ) : 0 ≤ loopSum b := by
  unfold loopSum
  split_ifs <;> norm_num

lemma loopSum_mono {a b : ℚ} (h : a ≤ b) : loopSum a ≤ loopSum b := by
  unfold loopSum
  exact add_le_add
    (add_le_add
      (add_le_add (indicator_mono (by norm_num) h) (indicator_mono (by norm_num) h))
      (indicator_mono (by norm_num) h))
    (indicator_mono (by norm_num) h)

lemma calculateMC_nonneg (i j : ℚ) : 0 ≤ calculateMC i j := by
  unfold calculateMC
  have h1 := loopSum_nonneg (fmin i 4)
  have h2 := loopSum_nonneg (fmin j 4)
  nlinarith

lemma calculateMC_mono {i i' j j' : ℚ} (hi : i ≤ i') (hj : j ≤ j') :
    calculateMC i j ≤ calculateMC i' j' := by
  unfold calculateMC
  have h1 := loopSum_mono (fmin_mono_left hi (c := 4))
  have h2 := loopSum_mono (fmin_mono_left hj (c := 4))
  nlinarith

lemma calculateMN_nonneg (t : NatType) : 0 ≤ calculateMN t := by
  cases t <;> norm_num [calculateMN]

lemma weighting_pos (p : Int) : 0 < weighting p := by
  unfold weighting
  split_ifs <;> norm_num

lemma ms_nonneg {a : ℚ} (h : 0 ≤ a) :
    0 ≤ fmin a 2000 * (1/100 + 1 / fmax a 1000) := by
  have h1 : (1000 : ℚ) ≤ fmax a 1000 := fmax_ge_right a 1000
  have h2 : (0 : ℚ) < fmax a 1000 := by linarith
  have h3 : (0 : ℚ) ≤ 1 / fmax a 1000 := le_of_lt (one_div_pos.2 h2)
  have h4 : 0 ≤ fmin a 2000 := fmin_nonneg h (by norm_num)
  nlinarith

lemma ms_mono {a b : ℚ} (h0 : 0 ≤ a) (hab : a ≤ b) (h2 : b ≤ 2000) :
    fmin a 2000 * (1/100 + 1 / fmax a 1000)
      ≤ fmin b 2000 * (1/100 + 1 / fmax b 1000) := by
  have ea : fmin a 2000 = a := by
    unfold fmin
    split_ifs <;> linarith
  have eb : fmin b 2000 = b := by
    unfold fmin
    split_ifs <;> linarith
  rw [ea, eb]
  rcases le_or_lt b 1000 with hc | hc
  · have ma : fmax a 1000 = 1000 := by
      unfold fmax
      split_ifs <;> linarith
    have mb : fmax b 1000 = 1000 := by
      unfold fmax
      split_ifs <;> linarith
    rw [ma, mb]
    have hp : (0 : ℚ) ≤ 1/100 + 1/1000 := by norm_num
    exact mul_le_mul_of_nonneg_right hab hp
  · have mb : fmax b 1000 = b := by
      unfold fmax
      split_ifs <;> linarith
    rw [mb]
    have hbpos : (0 : ℚ) < b := by linarith
    have hbne : b ≠ 0 := ne_of_gt hbpos
    have keyb : b * (1/100 + 1/b) = b/100 + 1 := by
      field_simp
      ring
    rcases le_or_lt a 1000 with hd | hd
    · have ma : fmax a 1000 = 1000 := by
        unfold fmax
        split_ifs <;> linarith
      rw [ma, keyb]
      linarith
    · have ma : fmax a 1000 = a := by
        unfold fmax
        split_ifs <;> linarith
      have hapos : (0 : ℚ) < a := by linarith
      have hane : a ≠ 0 := ne_of_gt hapos
      have keya : a * (1/100 + 1/a) = a/100 + 1 := by
        field_simp
        ring
      rw [ma, keya, keyb]
      linarith

lemma float2int_eq_floor {q : ℚ} (h : 0 ≤ q) : float2int q = ⌊q⌋ := by
  unfold float2int
  rw [if_neg (not_lt.2 h)]

lemma float2int_mono {a b : ℚ} (ha : 0 ≤ a) (h : a ≤ b) :
    float2int a ≤ float2int b := by
  rw [float2int_eq_floor ha, float2int_eq_floor (le_trans ha h)]
  exact Int.floor_le_floor h

lemma points_le_points (edges : Int) {a b c d e f : ℚ}
    (h1 : a ≤ d) (h2 : b ≤ e) (h3 : c ≤ f) (hn : 0 ≤ a + b + c) :
    float2int ((a + b + c) * weighting edges * 1)
      ≤ float2int ((d + e + f) * weighting edges * 1) := by
  have hw := weighting_pos edges
  apply float2int_mono
  · rw [mul_one]
    exact mul_nonneg hn (le_of_lt hw)
  · rw [mul_one, mul_one]
    exact mul_le_mul_of_nonneg_right (by linarith) (le_of_lt hw)

lemma points_core_nonneg (n : NodeData) (hb : 0 ≤ n.BandwidthUp) (hd : 0 ≤ n.DiskSpace) :
    0 ≤ calculateMC (n.CPUCores : ℚ) n.Memory
        + (10 + fmin ((n.BandwidthUp : ℚ)/100) 5 * 2) * calculateMN n.NATType
        + fmin (bytesToGB n.DiskSpace) 2000 * (1/100 + 1 / fmax (bytesToGB n.DiskSpace) 1000) := by
  have h1 := calculateMC_nonneg (n.CPUCores : ℚ) n.Memory
  have hbq : (0 : ℚ) ≤ (n.BandwidthUp : ℚ) := by exact_mod_cast hb
  have h2 : (0 : ℚ) ≤ fmin ((n.BandwidthUp : ℚ)/100) 5 :=
    fmin_nonneg (by positivity) (by norm_num)
  have h3 := calculateMN_nonneg n.NATType
  have h4 : (0 : ℚ) ≤ (10 + fmin ((n.BandwidthUp : ℚ)/100) 5 * 2) * calculateMN n.NATType :=
    mul_nonneg (by linarith) h3
  have h5 : (0 : ℚ) ≤ bytesToGB n.DiskSpace := by
    unfold bytesToGB
    positivity
  have h6 := ms_nonneg h5
  linarith

lemma bytesToGB_mono {a b : ℚ} (h : a ≤ b) : bytesToGB a ≤ bytesToGB b := by
  unfold bytesToGB
  linarith

/-! ### C7: scoring monotonicity -/

/-- C7: with NAT class and edge population fixed, increasing any one of
CPU cores, memory, upstream bandwidth, or disk space (disk within the
2000 GB saturation bound) never decreases the points computed by
`calculateAndSavePoints`. -/
theorem calculateAndSavePoints_monotone (edges : Int) (n : NodeData)
    (hb : 0 ≤ n.BandwidthUp) (hd : 0 ≤ n.DiskSpace) :
    (∀ c : Int, n.CPUCores ≤ c →
        calculateAndSavePoints edges n
          ≤ calculateAndSavePoints edges { n with CPUCores := c })
      ∧ (∀ m : ℚ, n.Memory ≤ m →
          calculateAndSavePoints edges n
            ≤ calculateAndSavePoints edges { n with Memory := m })
      ∧ (∀ b : Int, n.BandwidthUp ≤ b →
          calculateAndSavePoints edges n
            ≤ calculateAndSavePoints edges { n with BandwidthUp := b })
      ∧ (∀ d : ℚ, n.DiskSpace ≤ d → bytesToGB d ≤ 2000 →
          calculateAndSavePoints edges n
            ≤ calculateAndSavePoints edges { n with DiskSpace := d }) := by
  have hn := points_core_nonneg n hb hd
  refine ⟨?_, ?_, ?_, ?_⟩
  · intro c hc
    simp only [calculateAndSavePoints]
    exact points_le_points edges
      (calculateMC_mono (by exact_mod_cast hc) (le_refl _)) (le_refl _) (le_refl _) hn
  · intro m hm
    simp only [calculateAndSavePoints]
    exact points_le_points edges
      (calculateMC_mono (le_refl _) hm) (le_refl _) (le_refl _) hn
  · intro b hbb
    simp only [calculateAndSavePoints]
    refine points_le_points edges (le_refl _) ?_ (le_refl _) hn
    refine mul_le_mul_of_nonneg_right ?_ (calculateMN_nonneg n.NATType)
    have hq : (n.BandwidthUp : ℚ)/100 ≤ (b : ℚ)/100 := by
      have : (n.BandwidthUp : ℚ) ≤ (b : ℚ) := by exact_mod_cast hbb
      linarith
    have := fmin_mono_left hq (c := 5)
    linarith
  · intro d hdd hcap
    simp only [calculateAndSavePoints]
    refine points_le_points edges (le_refl _) (le_refl _) ?_ hn
    have h5 : (0 : ℚ) ≤ bytesToGB n.DiskSpace := by
      unfold bytesToGB
      positivity
    exact ms_mono h5 (bytesToGB_mono hdd) hcap

/-- C7 (witness). -/
theorem calculateAndSavePoints_monotone_witness :
    (calculateAndSavePoints 1000 sampleNode
        ≤ calculateAndSavePoints 1000 { sampleNode with CPUCores := 4 })
      ∧ (calculateAndSavePoints 1000 sampleNode
          ≤ calculateAndSavePoints 1000 { sampleNode with Memory := 4 })
      ∧ (calculateAndSavePoints 1000 sampleNode
          ≤ calculateAndSavePoints 1000 { sampleNode with BandwidthUp := 500 })
      ∧ (calculateAndSavePoints 1000 sampleNode
          ≤ calculateAndSavePoints 1000 { sampleNode with DiskSpace := 0 }) :=
  ⟨(calculateAndSavePoints_monotone 1000 sampleNode (by decide) (le_refl _)).1
      4 (by decide),
    (calculateAndSavePoints_monotone 1000 sampleNode (by decide) (le_refl _)).2.1
      4 (le_refl _),
    (calculateAndSavePoints_monotone 1000 sampleNode (by decide) (le_refl _)).2.2.1
      500 (by decide),
    (calculateAndSavePoints_monotone 1000 sampleNode (by decide) (le_refl _)).2.2.2
      0 (le_refl _) (by norm_num [bytesToGB])⟩

end Titan
